import Mathlib

/-!
Verification of `src/Section13/schedule2.py` (OSCON schedule traversal).

Shallow embedding: Python objects of the `Record` family are modelled as a
concrete class tag (`PyClass`) together with an instance `__dict__`, which is
an association list from field name to `Value`.  The process-wide store
reference `DbRecord.__db` is modelled by threading an `Option DbObj` argument
through the operations that read it; Python exceptions are modelled by
`Except PyError`.
-/

set_option autoImplicit false

namespace Schedule2

/-- The concrete classes of the `Record` family defined in the module:
`Record`, its subclass `DbRecord`, and its subclass `Event`. -/
inductive PyClass where
  | Record
  | DbRecord
  | Event
  deriving DecidableEq, Repr

/-- The `__name__` of each class. -/
def className : PyClass → String
  | .Record => "Record"
  | .DbRecord => "DbRecord"
  | .Event => "Event"

/-- `issubclass(c, DbRecord)` for the classes of the module. -/
def isSubclassOfDbRecord : PyClass → Bool
  | .Record => false
  | .DbRecord => true
  | .Event => true

/-- Values stored in an instance `__dict__` or in a raw JSON record: strings,
integers (the raw `serial` fields and speaker key fragments are ints),
lists, and `Record`-family instances (a class tag plus a field mapping). -/
inductive Value where
  | vStr (s : String)
  | vNat (n : Nat)
  | vList (elems : List Value)
  | vRec (cls : PyClass) (fields : List (String × Value))
  deriving Repr

/-- An instance `__dict__`: an association list with unique keys, in
insertion order, exactly as a CPython dict behaves. -/
abbrev Dict := List (String × Value)

/-- Mapping read `d[k]` as an `Option` (first binding of the key).  Used
both for instance dicts and for the flat store contents. -/
def alistGet {α : Type} : List (String × α) → String → Option α
  | [], _ => none
  | (k0, v0) :: rest, k => if k0 = k then some v0 else alistGet rest k

/-- Mapping write `d[k] = v`: replaces the binding in place when the key is
present (CPython keeps the original insertion position), appends
otherwise. -/
def alistSet {α : Type} : List (String × α) → String → α → List (String × α)
  | [], k, v => [(k, v)]
  | (k0, v0) :: rest, k, v =>
      if k0 = k then (k0, v) :: rest else (k0, v0) :: alistSet rest k v

mutual

/-- Python `==` on the values of our universe.  For two `Record`-family
instances this is `Record.__eq__` from the source: the `isinstance(other,
Record)` guard always passes (both operands are records), and then the two
instance dicts are compared — the concrete class tags are NOT compared.
Dict comparison is CPython dict `==`: same number of entries, and every
key of the first maps under the second to an `==`-equal value. -/
def valueEq : Value → Value → Bool
  | .vStr a, .vStr b => a == b
  | .vNat a, .vNat b => a == b
  | .vList as, .vList bs => listValEq as bs
  | .vRec _ f1, .vRec _ f2 => (f1.length == f2.length) && dictLe f1 f2
  | _, _ => false

/-- Python list `==`: elementwise, same length. -/
def listValEq : List Value → List Value → Bool
  | [], [] => true
  | a :: as, b :: bs => valueEq a b && listValEq as bs
  | _, _ => false

/-- Pointwise inclusion of the entries of `d1` in `d2` up to `valueEq`. -/
def dictLe : Dict → Dict → Bool
  | [], _ => true
  | (k, v) :: rest, d2 =>
      (match alistGet d2 k with
       | some v2 => valueEq v v2
       | none => false) && dictLe rest d2

end

/-- Python dict `==`: same number of entries and pointwise `==`-equal
values (with unique keys this is exactly CPython dict equality, which
ignores insertion order). -/
def dictEq (d1 d2 : Dict) : Bool :=
  (d1.length == d2.length) && dictLe d1 d2

/-- A `Record`-family instance: its concrete class and its `__dict__`. -/
structure RecordInst where
  cls : PyClass
  fields : Dict
  deriving Repr

/-- View a record instance as a `Value` (for storing fetched records inside
another instance dict, e.g. in `_speaker_objs`). -/
def recToValue (r : RecordInst) : Value :=
  .vRec r.cls r.fields

/-- `Record.__init__(self, **kwargs)`: the instance dict is exactly the
keyword mapping (`self.__dict__.update(kwargs)` on a fresh instance). -/
def Record.init (cls : PyClass) (kwargs : Dict) : RecordInst :=
  ⟨cls, kwargs⟩

/-- `Record.__eq__` from the source:

```
if isinstance(other, Record):
    return self.__dict__ == other.__dict__
else:
    return NotImplemented
```

Both arguments here are `Record`-family instances, so the `isinstance`
guard passes and the result is the dict comparison.  (Against a
non-`Record` operand the source returns `NotImplemented`, which Python
resolves to `False`; that case is outside this universe.) -/
def recordEq (self other : RecordInst) : Bool :=
  dictEq self.fields other.fields

/-- The spec's wording of equality, for comparison with `recordEq`:
"two Records are equal iff they are the same concrete variant AND their
full field mappings are equal". -/
def specRecordEq (self other : RecordInst) : Bool :=
  (self.cls == other.cls) && dictEq self.fields other.fields

/-- Python exceptions arising in this module. -/
inductive PyError where
  | typeError (msg : String)
  | keyError (key : String)
  | attributeError (name : String)
  | missingDatabaseError (msg : String)
  deriving DecidableEq, Repr

/-- The bound store object: `shelve.Shelf` is opaque here, modelled by its
`__getitem__` behaviour — for a key it either yields a stored record,
raises the native missing-key signal (`KeyError`), or misbehaves with a
`TypeError` (store misuse). -/
structure DbObj where
  getitem : String → Except PyError RecordInst

/-- A concrete well-behaved store over an association list of records:
present keys yield their record, absent keys raise `KeyError(key)`. -/
def DbObj.ofStore (st : List (String × RecordInst)) : DbObj :=
  ⟨fun k =>
    match alistGet st k with
    | some r => .ok r
    | none => .error (.keyError k)⟩

/-- A single-quote character (ASCII 39), used when reproducing the Python
message and repr strings. -/
def sqStr : String :=
  String.singleton (Char.ofNat 39)

/-- The `MissingDatabaseError` message raised by `fetch` for a calling
class `cls`: `"database not set; call '<cls>.set_db(my_db)'"`. -/
def missingDbMsg (cls : PyClass) : String :=
  "database not set; call " ++ sqStr ++ className cls ++ ".set_db(my_db)" ++ sqStr

/-- Subscripting the (possibly unbound) store: `db[ident]` where
`db = cls.get_db()`.  When no store was ever bound, `__db` is `None` and
`None[ident]` raises `TypeError`; otherwise the store's own
`__getitem__` runs. -/
def dbSubscript (db : Option DbObj) (ident : String) : Except PyError RecordInst :=
  match db with
  | none => .error (.typeError "NoneType object is not subscriptable")
  | some d => d.getitem ident

/-- `DbRecord.fetch(cls, ident)` from the source:

```
db = cls.get_db()
try:
    return db[ident]
except TypeError:
    if db is None:
        msg = "database not set; call '[cls].set_db(my_db)'"
        raise MissingDatabaseError(msg.format(cls.__name__))
    else:
        raise
```

`cls` is the class the classmethod was invoked on (any `DbRecord`
variant); `db` is the process-wide `DbRecord.__db` reference, threaded
explicitly.  Only `TypeError` is caught, and only when `db is None` is it
converted; every other exception (notably the store's `KeyError`)
propagates unchanged. -/
def fetch (cls : PyClass) (db : Option DbObj) (ident : String) : Except PyError RecordInst :=
  match dbSubscript db ident with
  | .ok r => .ok r
  | .error (.typeError m) =>
      if db.isNone then
        .error (.missingDatabaseError (missingDbMsg cls))
      else
        .error (.typeError m)
  | .error e => .error e

/-- A double-quote character (ASCII 34). -/
def dqStr : String :=
  String.singleton (Char.ofNat 34)

/-- CPython `repr` of a string: single quotes, except that a string
containing a single quote and no double quote is rendered with double
quotes; backslashes and the chosen quote are escaped.  (Control-character
escaping is not modelled; no field in the schedule data contains any.) -/
def pyReprStr (s : String) : String :=
  let sq := Char.ofNat 39
  let dq := Char.ofNat 34
  let bsl := Char.ofNat 92
  let chars := s.toList
  let quote := if chars.contains sq && !(chars.contains dq) then dq else sq
  let esc := chars.map (fun c =>
    if c = bsl then [bsl, bsl]
    else if c = quote then [bsl, c]
    else [c])
  String.mk (quote :: (esc.flatten ++ [quote]))

mutual

/-- CPython `repr` of a value, as used by `format(..., '!r')`: the source
only ever applies it to the `serial` and `name` fields (strings, or raw
integer serials).  A nested record instance would go through its own
`__repr__`, whose default form embeds a memory address; it is rendered
abstractly here and is reached by no claim. -/
def pyReprV : Value → String
  | .vStr s => pyReprStr s
  | .vNat n => toString n
  | .vList vs => "[" ++ pyReprElems vs ++ "]"
  | .vRec c _ => "<" ++ className c ++ " object>"

/-- Comma-separated element renderings of a Python list repr. -/
def pyReprElems : List Value → String
  | [] => ""
  | [v] => pyReprV v
  | v :: rest => pyReprV v ++ ", " ++ pyReprElems rest

end

/-- Python `str()` of a value, as used by a bare format slot: a string
renders as itself, an int in decimal; composite values fall back to their
repr (exactly CPython behaviour for lists; a record would go through its
`__repr__`, abstract here and reached by no claim). -/
def formatVal : Value → String
  | .vStr s => s
  | .vNat n => toString n
  | v => pyReprV v

/-- The result of `repr(obj)`: either a concrete formatted string, or
CPython's default `object.__repr__` (which embeds the instance's memory
address and is therefore kept abstract, tagged with the class). -/
inductive PyReprResult where
  | str (s : String)
  | objectDefault (cls : PyClass)
  deriving DecidableEq, Repr

/-- `DbRecord.__repr__` from the source: if the instance has a `serial`
attribute, render `<ClsName serial=repr(serial)>`; otherwise fall back to
`object.__repr__` via `super()`. -/
def DbRecord.reprMethod (self : RecordInst) : PyReprResult :=
  match alistGet self.fields "serial" with
  | some v => .str ("<" ++ className self.cls ++ " serial=" ++ pyReprV v ++ ">")
  | none => .objectDefault self.cls

/-- `Event.__repr__` from the source: if the instance has a `name`
attribute, render `<ClsName repr(name)>`; otherwise fall back to
`DbRecord.__repr__` via `super()`. -/
def Event.reprMethod (self : RecordInst) : PyReprResult :=
  match alistGet self.fields "name" with
  | some v => .str ("<" ++ className self.cls ++ " " ++ pyReprV v ++ ">")
  | none => DbRecord.reprMethod self

/-- `repr(obj)` dispatched on the instance's concrete class: plain
`Record` defines no `__repr__` and gets the object default. -/
def pyRepr (self : RecordInst) : PyReprResult :=
  match self.cls with
  | .Record => .objectDefault self.cls
  | .DbRecord => DbRecord.reprMethod self
  | .Event => Event.reprMethod self

/-- The `venue` property of `Event`:

```
key = 'venue.' + format(self.venue_serial)
return self.__class__.fetch(key)
```

Reads `venue_serial` through normal attribute lookup (no property of that
name exists, so the instance dict is consulted; a missing field raises
`AttributeError`), then fetches.  No instance state is touched. -/
def Event.venueProp (db : Option DbObj) (self : Dict) : Except PyError RecordInst :=
  match alistGet self "venue_serial" with
  | none => .error (.attributeError "venue_serial")
  | some v => fetch .Event db ("venue." ++ formatVal v)

/-- The list comprehension in the `speakers` property: fetch
`'speaker.' + format(key)` for each key fragment, in input order,
stopping at the first failing fetch. -/
def fetchSpeakers (db : Option DbObj) : List Value → Except PyError (List RecordInst)
  | [] => .ok []
  | k :: ks =>
    match fetch .Event db ("speaker." ++ formatVal k) with
    | .error e => .error e
    | .ok r =>
      match fetchSpeakers db ks with
      | .error e => .error e
      | .ok rs => .ok (r :: rs)

/-- The `speakers` property of `Event`:

```
if not hasattr(self, '_speaker_objs'):
    spkr_serials = self.__dict__['speakers']
    fetch = self.__class__.fetch
    self._speaker_objs = [fetch('speaker.' + format(key)) for key in spkr_serials]
return self._speaker_objs
```

Result: the returned value, the possibly-updated instance dict, and the
number of store fetches this access performed.  `hasattr` consults the
instance dict (`_speaker_objs` exists on no class); the raw field is read
through `self.__dict__` directly (`KeyError` when absent); iterating a
non-list raw value raises `TypeError`. -/
def Event.speakersProp (db : Option DbObj) (self : Dict) : Except PyError (Value × Dict × Nat) :=
  match alistGet self "_speaker_objs" with
  | some cached => .ok (cached, self, 0)
  | none =>
    match alistGet self "speakers" with
    | none => .error (.keyError "speakers")
    | some (.vList spkr_serials) =>
      match fetchSpeakers db spkr_serials with
      | .error e => .error e
      | .ok objs =>
          let objsV := Value.vList (objs.map recToValue)
          .ok (objsV, alistSet self "_speaker_objs" objsV, spkr_serials.length)
    | some _ => .error (.typeError "object is not iterable")

/-- Python attribute lookup on an `Event` instance, for plain data names:
the class's data descriptors — the properties `venue` and `speakers` —
take precedence over the instance `__dict__`; any other name is looked up
in the instance dict and raises `AttributeError` when absent.  (Methods
and other class attributes are not data and are outside the `Value`
universe.)  Result: the value, the possibly-updated instance dict, and
the number of store reads the access performed. -/
def Event.getattr (db : Option DbObj) (self : Dict) (attrName : String) :
    Except PyError (Value × Dict × Nat) :=
  if attrName = "venue" then
    match Event.venueProp db self with
    | .error e => .error e
    | .ok r => .ok (recToValue r, self, 1)
  else if attrName = "speakers" then
    Event.speakersProp db self
  else
    match alistGet self attrName with
    | some v => .ok (v, self, 0)
    | none => .error (.attributeError attrName)

/-- The flat store contents, as written by `load_db`. -/
abbrev StoreMap := List (String × RecordInst)

/-- Python `str.capitalize`: first character uppercased, the rest
lowercased. -/
def pyCapitalize (s : String) : String :=
  match s.toList with
  | [] => ""
  | c :: rest => String.mk (c.toUpper :: rest.map Char.toLower)

/-- `globals().get(cls_name, ...)` restricted to names bound to classes of
the `Record` family.  Every other module global (`warnings`, `inspect`,
`osconfeed`, `DB_NAME`, `CONFERENCE`, `MissingDatabaseError`, `load_db`)
either fails `inspect.isclass` or fails `issubclass(cls, DbRecord)`, so
it leads to exactly the same `DbRecord` fallback as an absent name. -/
def globalsClassGet (cls_name : String) : Option PyClass :=
  if cls_name = "Record" then some .Record
  else if cls_name = "DbRecord" then some .DbRecord
  else if cls_name = "Event" then some .Event
  else none

/-- The factory selection of `load_db`:

```
cls = globals().get(cls_name, DbRecord)
if inspect.isclass(cls) and issubclass(cls, DbRecord):
    factory = cls
else:
    factory = DbRecord
```
-/
def chooseFactory (cls_name : String) : PyClass :=
  match globalsClassGet cls_name with
  | some c => if isSubclassOfDbRecord c then c else .DbRecord
  | none => .DbRecord

/-- The singular record type derived from a collection name:
`collection[:-1]` (drop the trailing pluralizing character). -/
def recordTypeOf (collection : String) : String :=
  String.mk collection.toList.dropLast

/-- The store key derived for a raw record with raw serial value `s` in
collection `collection`. -/
def derivedKey (collection : String) (s : Value) : String :=
  recordTypeOf collection ++ "." ++ formatVal s

/-- The record instance `load_db` writes for a raw record `r` with raw
serial `s` of collection `collection`: the chosen factory applied to the
raw fields with `serial` overwritten by the full key. -/
def loadedRec (collection : String) (r : Dict) (s : Value) : RecordInst :=
  Record.init (chooseFactory (pyCapitalize (recordTypeOf collection)))
    (alistSet r "serial" (.vStr (derivedKey collection s)))

/-- The inner loop of `load_db` over one collection's record list:

```
for record in rec_list:
    key = record_type + '.' + format(record['serial'])
    record['serial'] = key
    db[key] = factory(**record)
```

A record without a `serial` field raises `KeyError('serial')` there;
the store keeps everything already written (the exception escapes, no
rollback). -/
def loadRecords (record_type : String) (factory : PyClass) (db : StoreMap) :
    List Dict → StoreMap × Option PyError
  | [] => (db, none)
  | record :: rest =>
    match alistGet record "serial" with
    | none => (db, some (.keyError "serial"))
    | some s =>
        let key := record_type ++ "." ++ formatVal s
        let record2 := alistSet record "serial" (.vStr key)
        loadRecords record_type factory (alistSet db key (Record.init factory record2)) rest

/-- `load_db` from the source, with the external collaborators factored
out: `osconfeed.load()['Schedule']` — the raw document — is the
`schedule` argument (a mapping from collection name to raw record list,
in iteration order), the shelf is the `db` argument, and the
`warnings.warn` call is a non-fatal side effect with no data flow.

```
for collection, rec_list in raw_data['Schedule'].items():
    record_type = collection[:-1]
    cls_name = record_type.capitalize()
    cls = globals().get(cls_name, DbRecord)
    if inspect.isclass(cls) and issubclass(cls, DbRecord):
        factory = cls
    else:
        factory = DbRecord
    for record in rec_list: ...
```

Returns the final store contents and the first exception, if any; the
store reflects every write made before the exception. -/
def load_db (db : StoreMap) : List (String × List Dict) → StoreMap × Option PyError
  | [] => (db, none)
  | (collection, rec_list) :: rest =>
    let record_type := recordTypeOf collection
    let cls_name := pyCapitalize record_type
    let factory := chooseFactory cls_name
    match loadRecords record_type factory db rec_list with
    | (db2, none) => load_db db2 rest
    | (db2, some e) => (db2, some e)

/-- The store key `load_db` will derive for a raw record, when the record
has a `serial` field. -/
def recKey (record_type : String) (r : Dict) : Option String :=
  (alistGet r "serial").map (fun s => record_type ++ "." ++ formatVal s)

/-- All store keys derivable from one collection's record list. -/
def recKeys (record_type : String) (recs : List Dict) : List String :=
  recs.filterMap (recKey record_type)

/-- All store keys derivable from a whole raw schedule document. -/
def schedKeys (schedule : List (String × List Dict)) : List String :=
  (schedule.map (fun p => recKeys (recordTypeOf p.1) p.2)).flatten

mutual

/-- Well-formedness of a value: every record field mapping reachable
inside it has unique keys (as every CPython dict does). -/
def valueWf : Value → Bool
  | .vStr _ => true
  | .vNat _ => true
  | .vList vs => listWf vs
  | .vRec _ f => dictWf f

/-- Well-formedness of a list of values. -/
def listWf : List Value → Bool
  | [] => true
  | v :: vs => valueWf v && listWf vs

/-- Well-formedness of a field mapping: keys are unique and all nested
values are well-formed. -/
def dictWf : Dict → Bool
  | [] => true
  | (k, v) :: rest => (alistGet rest k).isNone && valueWf v && dictWf rest

end

section AListLemmas

variable {α : Type}

theorem alistGet_alistSet_self (d : List (String × α)) (k : String) (v : α) :
    alistGet (alistSet d k v) k = some v := by
  induction d with
  | nil => simp [alistSet, alistGet]
  | cons kv rest ih =>
      obtain ⟨k0, v0⟩ := kv
      by_cases h : k0 = k
      · simp [alistSet, h, alistGet]
      · simp [alistSet, h, alistGet, ih]

theorem alistGet_alistSet_ne (d : List (String × α)) (k k' : String) (v : α)
    (h : k' ≠ k) : alistGet (alistSet d k v) k' = alistGet d k' := by
  induction d with
  | nil =>
      simp only [alistSet, alistGet]
      rw [if_neg (fun hc => h hc.symm)]
  | cons kv rest ih =>
      obtain ⟨k0, v0⟩ := kv
      by_cases h0 : k0 = k
      · subst h0
        simp only [alistSet, if_pos rfl, alistGet]
        rw [if_neg (fun hc => h hc.symm), if_neg (fun hc => h hc.symm)]
      · simp only [alistSet, if_neg h0, alistGet]
        by_cases h1 : k0 = k'
        · rw [if_pos h1, if_pos h1]
        · rw [if_neg h1, if_neg h1]
          exact ih

theorem alistSet_length_of_none (d : List (String × α)) (k : String) (v : α)
    (h : alistGet d k = none) : (alistSet d k v).length = d.length + 1 := by
  induction d with
  | nil => simp [alistSet]
  | cons kv rest ih =>
      obtain ⟨k0, v0⟩ := kv
      by_cases h0 : k0 = k
      · simp [alistGet, h0] at h
      · simp [alistGet, h0] at h
        simp [alistSet, h0, ih h]

theorem alistGet_mem {d : List (String × α)} {k : String} {v : α}
    (h : alistGet d k = some v) : (k, v) ∈ d := by
  induction d with
  | nil => simp [alistGet] at h
  | cons kv rest ih =>
      obtain ⟨k0, v0⟩ := kv
      by_cases h0 : k0 = k
      · subst h0
        simp [alistGet] at h
        simp [h]
      · simp [alistGet, h0] at h
        exact List.mem_cons_of_mem _ (ih h)

end AListLemmas

theorem dictWf_parts {k0 : String} {v0 : Value} {rest : Dict}
    (hwf : dictWf ((k0, v0) :: rest) = true) :
    alistGet rest k0 = none ∧ valueWf v0 = true ∧ dictWf rest = true := by
  simp only [dictWf, Bool.and_eq_true, Option.isNone_iff_eq_none] at hwf
  exact ⟨hwf.1.1, hwf.1.2, hwf.2⟩

theorem dictWf_get_of_mem {d : Dict} {k : String} {v : Value}
    (hwf : dictWf d = true) (hm : (k, v) ∈ d) : alistGet d k = some v := by
  induction d with
  | nil => simp at hm
  | cons kv rest ih =>
      obtain ⟨k0, v0⟩ := kv
      obtain ⟨hw1, hw2, hw3⟩ := dictWf_parts hwf
      rcases List.mem_cons.mp hm with h | h
      · obtain ⟨hk, hv⟩ := Prod.mk.injEq .. ▸ h
        subst hk
        subst hv
        simp [alistGet]
      · by_cases h0 : k0 = k
        · subst h0
          exact absurd (ih hw3 h) (by simp [hw1])
        · simp only [alistGet, if_neg h0]
          exact ih hw3 h

theorem dictWf_valueWf_of_mem {d : Dict} {k : String} {v : Value}
    (hwf : dictWf d = true) (hm : (k, v) ∈ d) : valueWf v = true := by
  induction d with
  | nil => simp at hm
  | cons kv rest ih =>
      obtain ⟨k0, v0⟩ := kv
      obtain ⟨hw1, hw2, hw3⟩ := dictWf_parts hwf
      rcases List.mem_cons.mp hm with h | h
      · obtain ⟨hk, hv⟩ := Prod.mk.injEq .. ▸ h
        subst hv
        exact hw2
      · exact ih hw3 h

mutual

/-- Python `==` is reflexive on well-formed values. -/
theorem valueEq_refl (v : Value) (h : valueWf v = true) : valueEq v v = true :=
  match v with
  | .vStr s => by simp [valueEq]
  | .vNat n => by simp [valueEq]
  | .vList vs => by
      simp only [valueEq]
      exact listValEq_refl vs (by simpa [valueWf] using h)
  | .vRec c f => by
      simp only [valueEq]
      rw [show (f.length == f.length) = true by simp, Bool.true_and]
      exact dictLe_of_sub f f
        (fun k v hm => dictWf_get_of_mem (by simpa [valueWf] using h) hm)
        (fun k v hm => dictWf_valueWf_of_mem (by simpa [valueWf] using h) hm)

/-- Elementwise Python `==` is reflexive on well-formed value lists. -/
theorem listValEq_refl (vs : List Value) (h : listWf vs = true) : listValEq vs vs = true :=
  match vs with
  | [] => by simp [listValEq]
  | v :: rest => by
      simp only [listValEq, Bool.and_eq_true]
      simp only [listWf, Bool.and_eq_true] at h
      exact ⟨valueEq_refl v h.1, listValEq_refl rest h.2⟩

/-- Every entry of `d1` that looks itself up in `d` yields a `==`-equal
well-formed value, hence `dictLe d1 d`. -/
theorem dictLe_of_sub (d1 d : Dict)
    (hsub : ∀ k v, (k, v) ∈ d1 → alistGet d k = some v)
    (hwf : ∀ k v, (k, v) ∈ d1 → valueWf v = true) : dictLe d1 d = true :=
  match d1 with
  | [] => by simp [dictLe]
  | (k, v) :: rest => by
      simp only [dictLe, Bool.and_eq_true]
      constructor
      · rw [hsub k v (List.mem_cons_self _ _)]
        exact valueEq_refl v (hwf k v (List.mem_cons_self _ _))
      · exact dictLe_of_sub rest d
          (fun k v hm => hsub k v (List.mem_cons_of_mem _ hm))
          (fun k v hm => hwf k v (List.mem_cons_of_mem _ hm))

end

/-- `recordEq` is reflexive on records whose field mapping is
well-formed. -/
theorem recordEq_refl (c : PyClass) (d : Dict) (h : dictWf d = true) :
    recordEq ⟨c, d⟩ ⟨c, d⟩ = true := by
  simp only [recordEq, dictEq]
  rw [show (d.length == d.length) = true by simp, Bool.true_and]
  exact dictLe_of_sub d d
    (fun k v hm => dictWf_get_of_mem h hm)
    (fun k v hm => dictWf_valueWf_of_mem h hm)

/-- The length component of Python dict equality. -/
theorem dictEq_length {d1 d2 : Dict} (h : dictEq d1 d2 = true) :
    d1.length = d2.length := by
  simp only [dictEq, Bool.and_eq_true, beq_iff_eq] at h
  exact h.1

theorem recKeys_cons (rt : String) (r : Dict) (recs : List Dict) (s : Value)
    (hs : alistGet r "serial" = some s) :
    recKeys rt (r :: recs) = (rt ++ "." ++ formatVal s) :: recKeys rt recs := by
  simp [recKeys, recKey, List.filterMap_cons, hs]

theorem recKey_mem {rt : String} {r : Dict} {recs : List Dict} {s : Value}
    (hr : r ∈ recs) (hs : alistGet r "serial" = some s) :
    (rt ++ "." ++ formatVal s) ∈ recKeys rt recs := by
  simp only [recKeys, List.mem_filterMap]
  exact ⟨r, hr, by simp [recKey, hs]⟩

theorem loadRecords_snd_none (rt : String) (f : PyClass) (db : StoreMap)
    (recs : List Dict) (hser : ∀ r ∈ recs, (alistGet r "serial").isSome) :
    (loadRecords rt f db recs).snd = none := by
  induction recs generalizing db with
  | nil => simp [loadRecords]
  | cons r0 rest ih =>
      obtain ⟨s0, hs0⟩ := Option.isSome_iff_exists.mp (hser r0 (List.mem_cons_self _ _))
      simp only [loadRecords, hs0]
      exact ih _ (fun r hr => hser r (List.mem_cons_of_mem _ hr))

theorem loadRecords_frame (rt : String) (f : PyClass) (db : StoreMap)
    (recs : List Dict) (k : String) (hk : k ∉ recKeys rt recs) :
    alistGet (loadRecords rt f db recs).fst k = alistGet db k := by
  induction recs generalizing db with
  | nil => simp [loadRecords]
  | cons r0 rest ih =>
      cases hs0 : alistGet r0 "serial" with
      | none => simp [loadRecords, hs0]
      | some s0 =>
          rw [recKeys_cons rt r0 rest s0 hs0] at hk
          simp only [List.mem_cons, not_or] at hk
          simp only [loadRecords, hs0]
          rw [ih _ hk.2]
          exact alistGet_alistSet_ne _ _ _ _ hk.1

theorem loadRecords_mem (rt : String) (f : PyClass) (db : StoreMap)
    (recs : List Dict) (r : Dict) (s : Value)
    (hser : ∀ r0 ∈ recs, (alistGet r0 "serial").isSome)
    (hnd : (recKeys rt recs).Nodup)
    (hr : r ∈ recs) (hs : alistGet r "serial" = some s) :
    alistGet (loadRecords rt f db recs).fst (rt ++ "." ++ formatVal s) =
      some (Record.init f (alistSet r "serial" (.vStr (rt ++ "." ++ formatVal s)))) := by
  induction recs generalizing db with
  | nil => simp at hr
  | cons r0 rest ih =>
      obtain ⟨s0, hs0⟩ := Option.isSome_iff_exists.mp (hser r0 (List.mem_cons_self _ _))
      rw [recKeys_cons rt r0 rest s0 hs0] at hnd
      have hnd0 := (List.nodup_cons.mp hnd).1
      have hndr := (List.nodup_cons.mp hnd).2
      simp only [loadRecords, hs0]
      rcases List.mem_cons.mp hr with h | h
      · subst h
        rw [hs0] at hs
        obtain rfl : s0 = s := Option.some.injEq .. ▸ hs
        rw [loadRecords_frame rt f _ rest _ hnd0]
        exact alistGet_alistSet_self _ _ _
      · exact ih _ (fun r1 hr1 => hser r1 (List.mem_cons_of_mem _ hr1)) hndr h

theorem schedKeys_cons (c : String) (recs : List Dict)
    (rest : List (String × List Dict)) :
    schedKeys ((c, recs) :: rest) = recKeys (recordTypeOf c) recs ++ schedKeys rest := by
  simp [schedKeys]

theorem load_db_snd_none (db : StoreMap) (schedule : List (String × List Dict))
    (hser : ∀ p ∈ schedule, ∀ r ∈ p.2, (alistGet r "serial").isSome) :
    (load_db db schedule).snd = none := by
  induction schedule generalizing db with
  | nil => simp [load_db]
  | cons p0 rest ih =>
      obtain ⟨c0, recs0⟩ := p0
      cases hlr : loadRecords (recordTypeOf c0) (chooseFactory (pyCapitalize (recordTypeOf c0))) db recs0 with
      | mk db2 e =>
          have he : e = none := by
            have := loadRecords_snd_none (recordTypeOf c0)
              (chooseFactory (pyCapitalize (recordTypeOf c0))) db recs0
              (fun r hr => hser (c0, recs0) (List.mem_cons_self _ _) r hr)
            rw [hlr] at this
            exact this
          subst he
          simp only [load_db]
          rw [hlr]
          exact ih _ (fun p hp => hser p (List.mem_cons_of_mem _ hp))

theorem load_db_frame (db : StoreMap) (schedule : List (String × List Dict))
    (k : String) (hk : k ∉ schedKeys schedule) :
    alistGet (load_db db schedule).fst k = alistGet db k := by
  induction schedule generalizing db with
  | nil => simp [load_db]
  | cons p0 rest ih =>
      obtain ⟨c0, recs0⟩ := p0
      rw [schedKeys_cons] at hk
      simp only [List.mem_append, not_or] at hk
      cases hlr : loadRecords (recordTypeOf c0) (chooseFactory (pyCapitalize (recordTypeOf c0))) db recs0 with
      | mk db2 e =>
          have hdb2 : alistGet db2 k = alistGet db k := by
            have := loadRecords_frame (recordTypeOf c0)
              (chooseFactory (pyCapitalize (recordTypeOf c0))) db recs0 k hk.1
            rw [hlr] at this
            exact this
          cases e with
          | none =>
              simp only [load_db]
              rw [hlr]
              rw [ih _ hk.2]
              exact hdb2
          | some err =>
              simp only [load_db]
              rw [hlr]
              exact hdb2

theorem load_db_mem (db : StoreMap) (schedule : List (String × List Dict))
    (c : String) (recs : List Dict) (r : Dict) (s : Value)
    (hser : ∀ p ∈ schedule, ∀ r0 ∈ p.2, (alistGet r0 "serial").isSome)
    (hnd : (schedKeys schedule).Nodup)
    (hc : (c, recs) ∈ schedule) (hr : r ∈ recs) (hs : alistGet r "serial" = some s) :
    alistGet (load_db db schedule).fst (derivedKey c s) = some (loadedRec c r s) := by
  induction schedule generalizing db with
  | nil => simp at hc
  | cons p0 rest ih =>
      obtain ⟨c0, recs0⟩ := p0
      rw [schedKeys_cons] at hnd
      rw [List.nodup_append] at hnd
      cases hlr : loadRecords (recordTypeOf c0) (chooseFactory (pyCapitalize (recordTypeOf c0))) db recs0 with
      | mk db2 e =>
          have he : e = none := by
            have := loadRecords_snd_none (recordTypeOf c0)
              (chooseFactory (pyCapitalize (recordTypeOf c0))) db recs0
              (fun r0 hr0 => hser (c0, recs0) (List.mem_cons_self _ _) r0 hr0)
            rw [hlr] at this
            exact this
          subst he
          simp only [load_db]
          rw [hlr]
          rcases List.mem_cons.mp hc with h | h
          · obtain ⟨hc0, hrecs0⟩ := Prod.mk.injEq .. ▸ h
            subst hc0
            subst hrecs0
            have hkmem : derivedKey c s ∈ recKeys (recordTypeOf c) recs :=
              recKey_mem hr hs
            rw [load_db_frame db2 rest _ (fun hmem => hnd.2.2 hkmem hmem)]
            have := loadRecords_mem (recordTypeOf c)
              (chooseFactory (pyCapitalize (recordTypeOf c))) db recs r s
              (fun r0 hr0 => hser (c, recs) (List.mem_cons_self _ _) r0 hr0)
              hnd.1 hr hs
            rw [hlr] at this
            exact this
          · exact ih _ (fun p hp => hser p (List.mem_cons_of_mem _ hp)) hnd.2.1 h

theorem loadRecords_err (rt : String) (f : PyClass) (db : StoreMap)
    (good : List Dict) (bad : Dict) (rest2 : List Dict)
    (hser : ∀ r ∈ good, (alistGet r "serial").isSome)
    (hbad : alistGet bad "serial" = none) :
    loadRecords rt f db (good ++ bad :: rest2) =
      ((loadRecords rt f db good).fst, some (.keyError "serial")) := by
  induction good generalizing db with
  | nil => simp [loadRecords, hbad]
  | cons r0 rest ih =>
      obtain ⟨s0, hs0⟩ := Option.isSome_iff_exists.mp (hser r0 (List.mem_cons_self _ _))
      simp only [List.cons_append, loadRecords, hs0]
      exact ih _ (fun r hr => hser r (List.mem_cons_of_mem _ hr))

theorem load_db_err (db : StoreMap) (pre : List (String × List Dict))
    (c : String) (good : List Dict) (bad : Dict) (rest2 : List Dict)
    (post : List (String × List Dict))
    (hpre : ∀ p ∈ pre, ∀ r ∈ p.2, (alistGet r "serial").isSome)
    (hgood : ∀ r ∈ good, (alistGet r "serial").isSome)
    (hbad : alistGet bad "serial" = none) :
    load_db db (pre ++ (c, good ++ bad :: rest2) :: post) =
      ((loadRecords (recordTypeOf c) (chooseFactory (pyCapitalize (recordTypeOf c)))
          (load_db db pre).fst good).fst,
       some (.keyError "serial")) := by
  induction pre generalizing db with
  | nil =>
      simp only [List.nil_append, load_db]
      rw [loadRecords_err _ _ _ _ _ _ hgood hbad]
  | cons p0 rest ih =>
      obtain ⟨c0, recs0⟩ := p0
      cases hlr : loadRecords (recordTypeOf c0) (chooseFactory (pyCapitalize (recordTypeOf c0))) db recs0 with
      | mk db2 e =>
          have he : e = none := by
            have := loadRecords_snd_none (recordTypeOf c0)
              (chooseFactory (pyCapitalize (recordTypeOf c0))) db recs0
              (fun r0 hr0 => hpre (c0, recs0) (List.mem_cons_self _ _) r0 hr0)
            rw [hlr] at this
            exact this
          subst he
          simp only [List.cons_append, load_db]
          rw [hlr]
          exact ih _ (fun p hp => hpre p (List.mem_cons_of_mem _ hp))

theorem schedKey_mem {schedule : List (String × List Dict)} {c : String}
    {recs : List Dict} {r : Dict} {s : Value}
    (hc : (c, recs) ∈ schedule) (hr : r ∈ recs) (hs : alistGet r "serial" = some s) :
    derivedKey c s ∈ schedKeys schedule := by
  simp only [schedKeys, List.mem_flatten, List.mem_map]
  exact ⟨recKeys (recordTypeOf c) recs, ⟨(c, recs), hc, rfl⟩, recKey_mem hr hs⟩

theorem fetchSpeakers_length (db : Option DbObj) (frags : List Value)
    (objs : List RecordInst) (h : fetchSpeakers db frags = .ok objs) :
    objs.length = frags.length := by
  induction frags generalizing objs with
  | nil =>
      simp only [fetchSpeakers] at h
      obtain rfl : ([] : List RecordInst) = objs := Except.ok.injEq .. ▸ h
      rfl
  | cons k ks ih =>
      simp only [fetchSpeakers] at h
      cases h1 : fetch .Event db ("speaker." ++ formatVal k) with
      | error e => rw [h1] at h; exact absurd h (by simp)
      | ok r =>
          rw [h1] at h
          cases h2 : fetchSpeakers db ks with
          | error e => rw [h2] at h; exact absurd h (by simp)
          | ok rs =>
              rw [h2] at h
              obtain rfl : r :: rs = objs := Except.ok.injEq .. ▸ h
              simp [ih rs h2]

theorem fetchSpeakers_get (db : Option DbObj) (frags : List Value)
    (objs : List RecordInst) (h : fetchSpeakers db frags = .ok objs) :
    ∀ (i : Nat) (k : Value), frags[i]? = some k →
      ∃ r, objs[i]? = some r ∧ fetch .Event db ("speaker." ++ formatVal k) = .ok r := by
  induction frags generalizing objs with
  | nil => intro i k hik; simp at hik
  | cons k0 ks ih =>
      simp only [fetchSpeakers] at h
      cases h1 : fetch .Event db ("speaker." ++ formatVal k0) with
      | error e => rw [h1] at h; exact absurd h (by simp)
      | ok r0 =>
          rw [h1] at h
          cases h2 : fetchSpeakers db ks with
          | error e => rw [h2] at h; exact absurd h (by simp)
          | ok rs =>
              rw [h2] at h
              obtain rfl : r0 :: rs = objs := Except.ok.injEq .. ▸ h
              intro i k hik
              cases i with
              | zero =>
                  simp only [List.getElem?_cons_zero] at hik
                  obtain rfl : k0 = k := Option.some.injEq .. ▸ hik
                  refine ⟨r0, ?_, h1⟩
                  simp
              | succ j =>
                  simp only [List.getElem?_cons_succ] at hik
                  obtain ⟨r, hr1, hr2⟩ := ih rs h2 j k hik
                  exact ⟨r, by simpa using hr1, hr2⟩

/-- C1 counterexample: a `DbRecord` and an `Event` with identical field
mappings compare equal under `Record.__eq__` even though their concrete
classes differ, refuting the claim that records of different variants are
always unequal.  The spec-worded equality (`specRecordEq`) disagrees with
the code at this input. -/
theorem C1_counterexample :
    recordEq ⟨.DbRecord, [("x", .vNat 1)]⟩ ⟨.Event, [("x", .vNat 1)]⟩ = true ∧
    PyClass.DbRecord ≠ PyClass.Event ∧
    specRecordEq ⟨.DbRecord, [("x", .vNat 1)]⟩ ⟨.Event, [("x", .vNat 1)]⟩ = false := by
  refine ⟨by decide, by decide, by decide⟩

/-- C1 (amended): record equality is variant-insensitive.  `Record.__eq__`
compares only the full field mappings — the concrete class plays no role —
so two records of different variants with equal field mappings compare
equal; restricted to same-variant pairs it agrees with the spec's
variant-sensitive statement, and it is reflexive on records whose field
mapping is well-formed. -/
theorem C1_record_equality (c1 c2 : PyClass) (d1 d2 : Dict) :
    recordEq ⟨c1, d1⟩ ⟨c2, d2⟩ = recordEq ⟨c2, d1⟩ ⟨c1, d2⟩ ∧
    (c1 = c2 → specRecordEq ⟨c1, d1⟩ ⟨c2, d2⟩ = recordEq ⟨c1, d1⟩ ⟨c2, d2⟩) ∧
    (dictEq d1 d2 = true → recordEq ⟨c1, d1⟩ ⟨c2, d2⟩ = true) ∧
    (dictWf d1 = true → recordEq ⟨c1, d1⟩ ⟨c2, d1⟩ = true) := by
  refine ⟨rfl, ?_, ?_, ?_⟩
  · intro h
    subst h
    simp [specRecordEq, recordEq]
  · intro h
    simpa [recordEq] using h
  · intro h
    exact recordEq_refl c1 d1 h

/-- C1 witness: the amended equality evaluated at concrete records. -/
theorem C1_record_equality_witness :
    specRecordEq ⟨.Event, [("x", .vNat 1)]⟩ ⟨.Event, [("y", .vNat 2), ("x", .vNat 1)]⟩ =
      recordEq ⟨.Event, [("x", .vNat 1)]⟩ ⟨.Event, [("y", .vNat 2), ("x", .vNat 1)]⟩ ∧
    recordEq ⟨.Record, [("a", .vStr "b"), ("c", .vNat 3)]⟩
      ⟨.Event, [("c", .vNat 3), ("a", .vStr "b")]⟩ = true ∧
    recordEq ⟨.DbRecord, [("serial", .vStr "venue.1449")]⟩
      ⟨.Event, [("serial", .vStr "venue.1449")]⟩ = true :=
  ⟨(C1_record_equality .Event .Event _ _).2.1 rfl,
   (C1_record_equality .Record .Event _ _).2.2.1 (by decide),
   (C1_record_equality .DbRecord .Event _ _).2.2.1 (by decide)⟩

/-- C2: when a store is bound, `fetch` is a pure pass-through of the
store's own lookup: its result equals `db[ident]` exactly, so a
`TypeError` raised by the underlying lookup is re-raised unchanged (never
converted to `MissingDatabaseError`) and the store's native `KeyError`
surfaces unchanged to the caller. -/
theorem C2_fetch_bound_passthrough (cls : PyClass) (d : DbObj) (ident : String)
    (hcls : isSubclassOfDbRecord cls = true) :
    fetch cls (some d) ident = d.getitem ident ∧
    (∀ m, d.getitem ident = .error (.typeError m) →
       fetch cls (some d) ident = .error (.typeError m)) ∧
    (∀ k, d.getitem ident = .error (.keyError k) →
       fetch cls (some d) ident = .error (.keyError k)) := by
  have hpass : fetch cls (some d) ident = d.getitem ident := by
    simp only [fetch, dbSubscript]
    cases d.getitem ident with
    | ok r => rfl
    | error e => cases e <;> simp
  exact ⟨hpass, fun m hm => hpass.trans hm, fun k hk => hpass.trans hk⟩

/-- C2 witness: a bound store whose lookup raises a `TypeError` at one key
and a `KeyError` at another; `fetch` reproduces both unchanged. -/
theorem C2_fetch_bound_passthrough_witness :
    fetch .Event
      (some ⟨fun k => if k = "bad" then .error (.typeError "store misuse")
                      else .error (.keyError k)⟩) "bad" =
      .error (.typeError "store misuse") ∧
    fetch .DbRecord
      (some ⟨fun k => if k = "bad" then .error (.typeError "store misuse")
                      else .error (.keyError k)⟩) "event.33950" =
      .error (.keyError "event.33950") :=
  ⟨(C2_fetch_bound_passthrough .Event _ "bad" (by decide)).2.1 "store misuse" (by simp),
   (C2_fetch_bound_passthrough .DbRecord _ "event.33950" (by decide)).2.2 "event.33950" (by simp)⟩

/-- C3: calling `fetch` when no store was ever bound raises
`MissingDatabaseError`, and the message names the calling variant and
instructs the caller to bind a store first:
`database not set; call <Variant>.set_db(my_db)` (variant name and quotes
as in the source format string). -/
theorem C3_fetch_unbound (cls : PyClass) (ident : String)
    (hcls : isSubclassOfDbRecord cls = true) :
    fetch cls none ident = .error (.missingDatabaseError (missingDbMsg cls)) ∧
    missingDbMsg cls =
      "database not set; call " ++ sqStr ++ className cls ++ ".set_db(my_db)" ++ sqStr := by
  exact ⟨rfl, rfl⟩

/-- C3 witness: the unbound-store failure at a concrete key, for both
variants on which `fetch` can be called, with the exact message. -/
theorem C3_fetch_unbound_witness :
    fetch .Event none "event.33950" =
      .error (.missingDatabaseError
        ("database not set; call " ++ sqStr ++ "Event.set_db(my_db)" ++ sqStr)) ∧
    fetch .DbRecord none "speaker.3471" =
      .error (.missingDatabaseError
        ("database not set; call " ++ sqStr ++ "DbRecord.set_db(my_db)" ++ sqStr)) :=
  ⟨(C3_fetch_unbound .Event "event.33950" (by decide)).1,
   (C3_fetch_unbound .DbRecord "speaker.3471" (by decide)).1⟩

/-- C4: on an `Event` whose raw `speakers` field is a list of key
fragments and which has no cache yet, the first access to the `speakers`
property fetches `speaker.<fragment>` for each fragment in input order
(one store read per fragment), returns the fetched records, and caches
them on the instance under `_speaker_objs`; a second access on the
updated instance returns the same cached sequence, leaves the instance
unchanged, and performs zero store reads. -/
theorem C4_speakers_memoized (db : Option DbObj) (self : Dict)
    (frags : List Value) (objs : List RecordInst)
    (hcache : alistGet self "_speaker_objs" = none)
    (hraw : alistGet self "speakers" = some (.vList frags))
    (hfetch : fetchSpeakers db frags = .ok objs) :
    Event.speakersProp db self =
      .ok (Value.vList (objs.map recToValue),
           alistSet self "_speaker_objs" (Value.vList (objs.map recToValue)),
           frags.length) ∧
    objs.length = frags.length ∧
    (∀ (i : Nat) (k : Value), frags[i]? = some k →
       ∃ r, objs[i]? = some r ∧ fetch .Event db ("speaker." ++ formatVal k) = .ok r) ∧
    alistGet (alistSet self "_speaker_objs" (Value.vList (objs.map recToValue)))
        "_speaker_objs" = some (Value.vList (objs.map recToValue)) ∧
    Event.speakersProp db (alistSet self "_speaker_objs" (Value.vList (objs.map recToValue))) =
      .ok (Value.vList (objs.map recToValue),
           alistSet self "_speaker_objs" (Value.vList (objs.map recToValue)),
           0) := by
  have hget := alistGet_alistSet_self self "_speaker_objs"
    (Value.vList (objs.map recToValue))
  refine ⟨?_, fetchSpeakers_length db frags objs hfetch,
    fetchSpeakers_get db frags objs hfetch, hget, ?_⟩
  · simp [Event.speakersProp, hcache, hraw, hfetch]
  · simp [Event.speakersProp, hget]

/-- C4 witness: the scenario with `speakers = [3471, 5199]` — the first
access fetches both speaker records in that order with two store reads
and caches them; the second access returns the same sequence with zero
store reads. -/
theorem C4_speakers_memoized_witness :
    Event.speakersProp
      (some (DbObj.ofStore
        [("speaker.3471", ⟨.DbRecord,
            [("serial", .vStr "speaker.3471"), ("name", .vStr "Anna Martelli Ravenscroft")]⟩),
         ("speaker.5199", ⟨.DbRecord,
            [("serial", .vStr "speaker.5199"), ("name", .vStr "Alex Martelli")]⟩)]))
      [("serial", .vStr "event.33950"), ("speakers", .vList [.vNat 3471, .vNat 5199])] =
      .ok (Value.vList
             ([(⟨.DbRecord, [("serial", .vStr "speaker.3471"),
                  ("name", .vStr "Anna Martelli Ravenscroft")]⟩ : RecordInst),
               ⟨.DbRecord, [("serial", .vStr "speaker.5199"),
                  ("name", .vStr "Alex Martelli")]⟩].map recToValue),
           alistSet [("serial", .vStr "event.33950"),
               ("speakers", .vList [.vNat 3471, .vNat 5199])] "_speaker_objs"
             (Value.vList
               ([(⟨.DbRecord, [("serial", .vStr "speaker.3471"),
                    ("name", .vStr "Anna Martelli Ravenscroft")]⟩ : RecordInst),
                 ⟨.DbRecord, [("serial", .vStr "speaker.5199"),
                    ("name", .vStr "Alex Martelli")]⟩].map recToValue)),
           2) ∧
    Event.speakersProp
      (some (DbObj.ofStore
        [("speaker.3471", ⟨.DbRecord,
            [("serial", .vStr "speaker.3471"), ("name", .vStr "Anna Martelli Ravenscroft")]⟩),
         ("speaker.5199", ⟨.DbRecord,
            [("serial", .vStr "speaker.5199"), ("name", .vStr "Alex Martelli")]⟩)]))
      (alistSet [("serial", .vStr "event.33950"),
           ("speakers", .vList [.vNat 3471, .vNat 5199])] "_speaker_objs"
         (Value.vList
           ([(⟨.DbRecord, [("serial", .vStr "speaker.3471"),
                ("name", .vStr "Anna Martelli Ravenscroft")]⟩ : RecordInst),
             ⟨.DbRecord, [("serial", .vStr "speaker.5199"),
                ("name", .vStr "Alex Martelli")]⟩].map recToValue))) =
      .ok (Value.vList
             ([(⟨.DbRecord, [("serial", .vStr "speaker.3471"),
                  ("name", .vStr "Anna Martelli Ravenscroft")]⟩ : RecordInst),
               ⟨.DbRecord, [("serial", .vStr "speaker.5199"),
                  ("name", .vStr "Alex Martelli")]⟩].map recToValue),
           alistSet [("serial", .vStr "event.33950"),
               ("speakers", .vList [.vNat 3471, .vNat 5199])] "_speaker_objs"
             (Value.vList
               ([(⟨.DbRecord, [("serial", .vStr "speaker.3471"),
                    ("name", .vStr "Anna Martelli Ravenscroft")]⟩ : RecordInst),
                 ⟨.DbRecord, [("serial", .vStr "speaker.5199"),
                    ("name", .vStr "Alex Martelli")]⟩].map recToValue)),
           0) := by
  have h := C4_speakers_memoized
    (some (DbObj.ofStore
      [("speaker.3471", ⟨.DbRecord,
          [("serial", .vStr "speaker.3471"), ("name", .vStr "Anna Martelli Ravenscroft")]⟩),
       ("speaker.5199", ⟨.DbRecord,
          [("serial", .vStr "speaker.5199"), ("name", .vStr "Alex Martelli")]⟩)]))
    [("serial", .vStr "event.33950"), ("speakers", .vList [.vNat 3471, .vNat 5199])]
    [.vNat 3471, .vNat 5199]
    [⟨.DbRecord, [("serial", .vStr "speaker.3471"),
        ("name", .vStr "Anna Martelli Ravenscroft")]⟩,
     ⟨.DbRecord, [("serial", .vStr "speaker.5199"),
        ("name", .vStr "Alex Martelli")]⟩]
    rfl rfl rfl
  exact ⟨h.1, h.2.2.2.2⟩

/-- C5: for a raw document whose records all carry a `serial` field (and
whose derived keys do not collide), `load_db` completes without error and
writes, for every raw record, a store entry under the key
`<record_type>.<raw-serial>` — where `record_type` is the collection name
with its trailing character removed — whose record is built by the
variant class chosen by `chooseFactory` from the capitalized record type
(the class of that name when it is a `DbRecord` subclass, the generic
`DbRecord` otherwise) applied to the raw fields with `serial` first
overwritten by the full key; the stored record therefore carries the
fully-qualified key in its own `serial` field. -/
theorem C5_load_db_writes (schedule : List (String × List Dict)) (db0 : StoreMap)
    (hser : ∀ p ∈ schedule, ∀ r ∈ p.2, (alistGet r "serial").isSome)
    (hnd : (schedKeys schedule).Nodup) :
    (load_db db0 schedule).snd = none ∧
    (∀ p ∈ schedule, ∀ r ∈ p.2, ∀ s, alistGet r "serial" = some s →
       alistGet (load_db db0 schedule).fst (derivedKey p.1 s) = some (loadedRec p.1 r s)) ∧
    (∀ c r s, (loadedRec c r s).cls = chooseFactory (pyCapitalize (recordTypeOf c)) ∧
       alistGet (loadedRec c r s).fields "serial" = some (.vStr (derivedKey c s))) := by
  refine ⟨load_db_snd_none db0 schedule hser, ?_, ?_⟩
  · intro p hp r hr s hs
    exact load_db_mem db0 schedule p.1 p.2 r s hser hnd hp hr hs
  · intro c r s
    exact ⟨rfl, alistGet_alistSet_self r "serial" (.vStr (derivedKey c s))⟩

/-- C5 witness: loading a document with `events`, `venues` and `speakers`
collections produces entries keyed `event.<serial>`, `venue.<serial>`,
`speaker.<serial>`; the `events` collection is built with the `Event`
variant (class `Event` exists and subclasses `DbRecord`) while `venues`
and `speakers` fall back to `DbRecord` (no such classes exist), and every
stored record carries its full key in `serial`. -/
theorem C5_load_db_writes_witness :
    (load_db []
        [("events", [[("serial", .vNat 33950), ("name", .vStr "There *Will* Be Bugs")]]),
         ("venues", [[("serial", .vNat 1449), ("name", .vStr "Portland 251")]]),
         ("speakers", [[("serial", .vNat 3471), ("name", .vStr "Anna Martelli Ravenscroft")]])]).snd
      = none ∧
    alistGet (load_db []
        [("events", [[("serial", .vNat 33950), ("name", .vStr "There *Will* Be Bugs")]]),
         ("venues", [[("serial", .vNat 1449), ("name", .vStr "Portland 251")]]),
         ("speakers", [[("serial", .vNat 3471), ("name", .vStr "Anna Martelli Ravenscroft")]])]).fst
      (derivedKey "events" (.vNat 33950)) =
      some (loadedRec "events" [("serial", .vNat 33950), ("name", .vStr "There *Will* Be Bugs")]
        (.vNat 33950)) ∧
    alistGet (load_db []
        [("events", [[("serial", .vNat 33950), ("name", .vStr "There *Will* Be Bugs")]]),
         ("venues", [[("serial", .vNat 1449), ("name", .vStr "Portland 251")]]),
         ("speakers", [[("serial", .vNat 3471), ("name", .vStr "Anna Martelli Ravenscroft")]])]).fst
      (derivedKey "speakers" (.vNat 3471)) =
      some (loadedRec "speakers"
        [("serial", .vNat 3471), ("name", .vStr "Anna Martelli Ravenscroft")] (.vNat 3471)) ∧
    derivedKey "events" (.vNat 33950) = "event.33950" ∧
    derivedKey "speakers" (.vNat 3471) = "speaker.3471" ∧
    (loadedRec "events" [("serial", .vNat 33950), ("name", .vStr "There *Will* Be Bugs")]
        (.vNat 33950)).cls = .Event ∧
    (loadedRec "speakers"
        [("serial", .vNat 3471), ("name", .vStr "Anna Martelli Ravenscroft")]
        (.vNat 3471)).cls = .DbRecord := by
  have h := C5_load_db_writes
    [("events", [[("serial", .vNat 33950), ("name", .vStr "There *Will* Be Bugs")]]),
     ("venues", [[("serial", .vNat 1449), ("name", .vStr "Portland 251")]]),
     ("speakers", [[("serial", .vNat 3471), ("name", .vStr "Anna Martelli Ravenscroft")]])]
    [] (by decide) (by decide)
  refine ⟨h.1, ?_, ?_, by decide, by decide, by decide, by decide⟩
  · exact h.2.1 ("events", [[("serial", .vNat 33950), ("name", .vStr "There *Will* Be Bugs")]])
      (by simp) [("serial", .vNat 33950), ("name", .vStr "There *Will* Be Bugs")]
      (by simp) (.vNat 33950) rfl
  · exact h.2.1
      ("speakers", [[("serial", .vNat 3471), ("name", .vStr "Anna Martelli Ravenscroft")]])
      (by simp) [("serial", .vNat 3471), ("name", .vStr "Anna Martelli Ravenscroft")]
      (by simp) (.vNat 3471) rfl

/-- C6: every access to the `venue` property of an `Event` with a
`venue_serial` field builds the key `venue.<venue_serial>` and returns
exactly the result of `fetch` on it — no memoization: the attribute
access leaves the instance dict unchanged and performs the store read on
each access — and it fails exactly as `fetch` fails, propagating
`MissingDatabaseError` or store errors unchanged. -/
theorem C6_venue_every_access (db : Option DbObj) (self : Dict) (v : Value)
    (h : alistGet self "venue_serial" = some v) :
    Event.venueProp db self = fetch .Event db ("venue." ++ formatVal v) ∧
    (∀ r, fetch .Event db ("venue." ++ formatVal v) = .ok r →
       Event.getattr db self "venue" = .ok (recToValue r, self, 1)) ∧
    (∀ e, fetch .Event db ("venue." ++ formatVal v) = .error e →
       Event.getattr db self "venue" = .error e) := by
  refine ⟨by simp [Event.venueProp, h], ?_, ?_⟩
  · intro r hr
    simp [Event.getattr, Event.venueProp, h, hr]
  · intro e he
    simp [Event.getattr, Event.venueProp, h, he]

/-- C6 witness: with a bound store holding the venue, the access returns
the fetched record and leaves the instance unchanged; with no store ever
bound, the same access surfaces `MissingDatabaseError` unchanged. -/
theorem C6_venue_every_access_witness :
    Event.getattr
      (some (DbObj.ofStore [("venue.1449",
         ⟨.DbRecord, [("serial", .vStr "venue.1449"), ("name", .vStr "Portland 251")]⟩)]))
      [("serial", .vStr "event.33950"), ("venue_serial", .vNat 1449)] "venue" =
      .ok (recToValue ⟨.DbRecord,
             [("serial", .vStr "venue.1449"), ("name", .vStr "Portland 251")]⟩,
           [("serial", .vStr "event.33950"), ("venue_serial", .vNat 1449)], 1) ∧
    Event.getattr none
      [("serial", .vStr "event.33950"), ("venue_serial", .vNat 1449)] "venue" =
      .error (.missingDatabaseError (missingDbMsg .Event)) :=
  ⟨(C6_venue_every_access
      (some (DbObj.ofStore [("venue.1449",
         ⟨.DbRecord, [("serial", .vStr "venue.1449"), ("name", .vStr "Portland 251")]⟩)]))
      [("serial", .vStr "event.33950"), ("venue_serial", .vNat 1449)]
      (.vNat 1449) rfl).2.1
     ⟨.DbRecord, [("serial", .vStr "venue.1449"), ("name", .vStr "Portland 251")]⟩ rfl,
   (C6_venue_every_access none
      [("serial", .vStr "event.33950"), ("venue_serial", .vNat 1449)]
      (.vNat 1449) rfl).2.2
     (.missingDatabaseError (missingDbMsg .Event)) rfl⟩

/-- C7: an `Event` with a `name` field renders as `<Event repr(name)>`
(for the scenario name exactly `<Event 'There *Will* Be Bugs'>`); a
`DbRecord`-family record that is not rendered through a `name` (a generic
`DbRecord`, or an `Event` without `name`) but has a `serial` field
renders as `<VariantName serial=repr(serial)>` (for the scenario exactly
`<DbRecord serial='venue.1449'>`); a record with neither falls back to
the generic default object representation. -/
theorem C7_repr (f g : Dict) (c : PyClass) (name : String) (serialVal : Value)
    (hname : alistGet f "name" = some (.vStr name))
    (hcls : isSubclassOfDbRecord c = true)
    (hnog : c = .DbRecord ∨ alistGet g "name" = none)
    (hserial : alistGet g "serial" = some serialVal) :
    pyRepr ⟨.Event, f⟩ = .str ("<Event " ++ pyReprStr name ++ ">") ∧
    pyRepr ⟨c, g⟩ = .str ("<" ++ className c ++ " serial=" ++ pyReprV serialVal ++ ">") ∧
    (∀ (c0 : PyClass) (h0 : Dict), alistGet h0 "name" = none →
       alistGet h0 "serial" = none → pyRepr ⟨c0, h0⟩ = .objectDefault c0) := by
  refine ⟨?_, ?_, ?_⟩
  · simp [pyRepr, Event.reprMethod, hname, pyReprV, className]
  · cases c with
    | Record => simp [isSubclassOfDbRecord] at hcls
    | DbRecord => simp [pyRepr, DbRecord.reprMethod, hserial]
    | Event =>
        rcases hnog with hc | hg
        · exact absurd hc (by decide)
        · simp [pyRepr, Event.reprMethod, DbRecord.reprMethod, hg, hserial]
  · intro c0 h0 h1 h2
    cases c0 with
    | Record => simp [pyRepr]
    | DbRecord => simp [pyRepr, DbRecord.reprMethod, h2]
    | Event => simp [pyRepr, Event.reprMethod, DbRecord.reprMethod, h1, h2]

/-- C7 witness: the two exact scenario strings, with the quotes produced
by the Python string repr, and the fallback case. -/
theorem C7_repr_witness :
    pyRepr ⟨.Event, [("name", .vStr "There *Will* Be Bugs"),
        ("serial", .vStr "event.33950")]⟩ =
      .str ("<Event " ++ sqStr ++ "There *Will* Be Bugs" ++ sqStr ++ ">") ∧
    pyRepr ⟨.DbRecord, [("serial", .vStr "venue.1449"),
        ("name", .vStr "Portland 251")]⟩ =
      .str ("<DbRecord serial=" ++ sqStr ++ "venue.1449" ++ sqStr ++ ">") ∧
    pyRepr ⟨.DbRecord, [("x", .vNat 3)]⟩ = .objectDefault .DbRecord := by
  have h := C7_repr
    [("name", .vStr "There *Will* Be Bugs"), ("serial", .vStr "event.33950")]
    [("serial", .vStr "venue.1449"), ("name", .vStr "Portland 251")]
    .DbRecord "There *Will* Be Bugs" (.vStr "venue.1449")
    rfl (by decide) (Or.inl rfl) rfl
  refine ⟨?_, ?_, h.2.2 .DbRecord [("x", .vNat 3)] rfl rfl⟩
  · rw [h.1]
    rfl
  · rw [h.2.1]
    rfl

/-- C8: accessing `speakers` mutates the instance dict by adding the
`_speaker_objs` cache field, so two `Event`s that compare equal
beforehand compare unequal after exactly one of them performs the
access — structural equality between `Event`s is not preserved by the
`speakers` accessor. -/
theorem C8_speakers_breaks_equality (db : Option DbObj) (d1 d2 : Dict)
    (frags : List Value) (objs : List RecordInst)
    (heq : recordEq ⟨.Event, d1⟩ ⟨.Event, d2⟩ = true)
    (hc1 : alistGet d1 "_speaker_objs" = none)
    (hc2 : alistGet d2 "_speaker_objs" = none)
    (hraw : alistGet d1 "speakers" = some (.vList frags))
    (hfetch : fetchSpeakers db frags = .ok objs) :
    Event.speakersProp db d1 =
      .ok (Value.vList (objs.map recToValue),
           alistSet d1 "_speaker_objs" (Value.vList (objs.map recToValue)),
           frags.length) ∧
    recordEq ⟨.Event, alistSet d1 "_speaker_objs" (Value.vList (objs.map recToValue))⟩
      ⟨.Event, d2⟩ = false := by
  refine ⟨by simp [Event.speakersProp, hc1, hraw, hfetch], ?_⟩
  have hlen : d1.length = d2.length := dictEq_length (by simpa [recordEq] using heq)
  have h1 : (alistSet d1 "_speaker_objs" (Value.vList (objs.map recToValue))).length =
      d1.length + 1 :=
    alistSet_length_of_none d1 "_speaker_objs" (Value.vList (objs.map recToValue)) hc1
  have hne : (alistSet d1 "_speaker_objs" (Value.vList (objs.map recToValue))).length ≠
      d2.length := by
    rw [h1, hlen]
    omega
  have hbeq : ((alistSet d1 "_speaker_objs" (Value.vList (objs.map recToValue))).length ==
      d2.length) = false := beq_eq_false_iff_ne.mpr hne
  simp only [recordEq, dictEq, hbeq, Bool.false_and]

/-- C8 witness: two structurally equal fresh events; after one of them
resolves its speakers, the two compare unequal. -/
theorem C8_speakers_breaks_equality_witness :
    recordEq ⟨.Event, [("speakers", .vList [.vNat 3471])]⟩
      ⟨.Event, [("speakers", .vList [.vNat 3471])]⟩ = true ∧
    recordEq
      ⟨.Event, alistSet [("speakers", .vList [.vNat 3471])] "_speaker_objs"
        (Value.vList
          ([(⟨.DbRecord, [("serial", .vStr "speaker.3471")]⟩ : RecordInst)].map recToValue))⟩
      ⟨.Event, [("speakers", .vList [.vNat 3471])]⟩ = false :=
  ⟨by decide,
   (C8_speakers_breaks_equality
      (some (DbObj.ofStore
        [("speaker.3471", ⟨.DbRecord, [("serial", .vStr "speaker.3471")]⟩)]))
      [("speakers", .vList [.vNat 3471])] [("speakers", .vList [.vNat 3471])]
      [.vNat 3471] [⟨.DbRecord, [("serial", .vStr "speaker.3471")]⟩]
      (by decide) rfl rfl rfl rfl).2⟩

/-- C9: on an `Event` built from raw fields, the `speakers` property (a
class-level data descriptor) shadows the identically named raw field:
plain attribute access goes through the property, the raw fragment list
stays reachable only via the underlying field mapping, and a successful
access always yields the sequence of fetched records — never the raw
fragment sequence itself (whenever the fragments are raw numeric keys
and there is at least one). -/
theorem C9_speakers_shadowing (db : Option DbObj) (self : Dict) (frags : List Value)
    (hraw : alistGet self "speakers" = some (.vList frags))
    (hcache : alistGet self "_speaker_objs" = none) :
    Event.getattr db self "speakers" = Event.speakersProp db self ∧
    (∀ v d n, Event.getattr db self "speakers" = .ok (v, d, n) →
       ∃ objs, fetchSpeakers db frags = .ok objs ∧
         v = Value.vList (objs.map recToValue) ∧
         alistGet d "speakers" = some (.vList frags) ∧
         ((∀ kf ∈ frags, ∃ m, kf = Value.vNat m) → frags ≠ [] →
            v ≠ Value.vList frags)) := by
  have hgs : Event.getattr db self "speakers" = Event.speakersProp db self := by
    simp [Event.getattr]
  refine ⟨hgs, ?_⟩
  intro v d n h
  rw [hgs] at h
  simp only [Event.speakersProp, hcache, hraw] at h
  cases hfs : fetchSpeakers db frags with
  | error e =>
      rw [hfs] at h
      exact absurd h (by simp)
  | ok objs =>
      rw [hfs] at h
      simp only [Except.ok.injEq, Prod.mk.injEq] at h
      obtain ⟨hv, hd, hn⟩ := h
      subst hv
      subst hd
      refine ⟨objs, rfl, rfl, ?_, ?_⟩
      · rw [alistGet_alistSet_ne self "_speaker_objs" "speakers" _ (by decide)]
        exact hraw
      · intro hnat hne heqv
        have hlist : objs.map recToValue = frags := by
          simpa using heqv
        cases hfr : frags with
        | nil => exact hne hfr
        | cons kf rest =>
            rw [hfr] at hlist
            cases objs with
            | nil => simp at hlist
            | cons r0 os =>
                have hh : recToValue r0 = kf := (List.cons.injEq .. ▸ hlist).1
                obtain ⟨m, hm⟩ := hnat kf (by rw [hfr]; exact List.mem_cons_self _ _)
                rw [hm] at hh
                simp [recToValue] at hh

/-- C9 witness: an event whose raw `speakers` field is `[3471]`; plain
attribute access returns the fetched record list, while the raw fragment
list remains visible only through the field mapping. -/
theorem C9_speakers_shadowing_witness :
    Event.getattr
      (some (DbObj.ofStore
        [("speaker.3471", ⟨.DbRecord, [("serial", .vStr "speaker.3471")]⟩)]))
      [("speakers", .vList [.vNat 3471])] "speakers" =
      Event.speakersProp
        (some (DbObj.ofStore
          [("speaker.3471", ⟨.DbRecord, [("serial", .vStr "speaker.3471")]⟩)]))
        [("speakers", .vList [.vNat 3471])] ∧
    ∃ objs, fetchSpeakers
        (some (DbObj.ofStore
          [("speaker.3471", ⟨.DbRecord, [("serial", .vStr "speaker.3471")]⟩)]))
        [.vNat 3471] = .ok objs ∧
      Value.vList ([(⟨.DbRecord, [("serial", .vStr "speaker.3471")]⟩ : RecordInst)].map
          recToValue) = Value.vList (objs.map recToValue) ∧
      alistGet (alistSet [("speakers", .vList [.vNat 3471])] "_speaker_objs"
          (Value.vList
            ([(⟨.DbRecord, [("serial", .vStr "speaker.3471")]⟩ : RecordInst)].map
              recToValue))) "speakers" = some (.vList [.vNat 3471]) ∧
      ((∀ kf ∈ [Value.vNat 3471], ∃ m, kf = Value.vNat m) → [Value.vNat 3471] ≠ [] →
         Value.vList ([(⟨.DbRecord, [("serial", .vStr "speaker.3471")]⟩ : RecordInst)].map
             recToValue) ≠ Value.vList [Value.vNat 3471]) :=
  ⟨(C9_speakers_shadowing
      (some (DbObj.ofStore
        [("speaker.3471", ⟨.DbRecord, [("serial", .vStr "speaker.3471")]⟩)]))
      [("speakers", .vList [.vNat 3471])] [.vNat 3471] rfl rfl).1,
   (C9_speakers_shadowing
      (some (DbObj.ofStore
        [("speaker.3471", ⟨.DbRecord, [("serial", .vStr "speaker.3471")]⟩)]))
      [("speakers", .vList [.vNat 3471])] [.vNat 3471] rfl rfl).2
     (Value.vList ([(⟨.DbRecord, [("serial", .vStr "speaker.3471")]⟩ : RecordInst)].map
        recToValue))
     (alistSet [("speakers", .vList [.vNat 3471])] "_speaker_objs"
        (Value.vList ([(⟨.DbRecord, [("serial", .vStr "speaker.3471")]⟩ : RecordInst)].map
          recToValue)))
     1 rfl⟩

/-- C10: `load_db` requires a `serial` field on every raw record: hitting
a record without one fails with the mapping's `KeyError('serial')` at
that record, and everything processed before it — the earlier collections
and the earlier records of the same collection — remains written in the
store, while nothing at or after the failing record is written (no
rollback; the load is not atomic). -/
theorem C10_load_db_not_atomic (db0 : StoreMap) (pre : List (String × List Dict))
    (c : String) (good : List Dict) (bad : Dict) (rest2 : List Dict)
    (post : List (String × List Dict))
    (hpre : ∀ p ∈ pre, ∀ r ∈ p.2, (alistGet r "serial").isSome)
    (hgood : ∀ r ∈ good, (alistGet r "serial").isSome)
    (hbad : alistGet bad "serial" = none)
    (hnd : (schedKeys pre ++ recKeys (recordTypeOf c) good).Nodup) :
    (load_db db0 (pre ++ (c, good ++ bad :: rest2) :: post)).snd =
      some (.keyError "serial") ∧
    (load_db db0 (pre ++ (c, good ++ bad :: rest2) :: post)).fst =
      (loadRecords (recordTypeOf c) (chooseFactory (pyCapitalize (recordTypeOf c)))
        (load_db db0 pre).fst good).fst ∧
    (∀ r ∈ good, ∀ s, alistGet r "serial" = some s →
       alistGet (load_db db0 (pre ++ (c, good ++ bad :: rest2) :: post)).fst
         (derivedKey c s) = some (loadedRec c r s)) ∧
    (∀ p ∈ pre, ∀ r ∈ p.2, ∀ s, alistGet r "serial" = some s →
       alistGet (load_db db0 (pre ++ (c, good ++ bad :: rest2) :: post)).fst
         (derivedKey p.1 s) = some (loadedRec p.1 r s)) := by
  have hld := load_db_err db0 pre c good bad rest2 post hpre hgood hbad
  rw [List.nodup_append] at hnd
  refine ⟨by rw [hld], by rw [hld], ?_, ?_⟩
  · intro r hr s hs
    rw [hld]
    simp only [derivedKey, loadedRec]
    exact loadRecords_mem (recordTypeOf c)
      (chooseFactory (pyCapitalize (recordTypeOf c))) (load_db db0 pre).fst good r s
      hgood hnd.2.1 hr hs
  · intro p hp r hr s hs
    rw [hld]
    have hk : derivedKey p.1 s ∈ schedKeys pre := schedKey_mem hp hr hs
    rw [loadRecords_frame _ _ _ _ _ (fun hmem => hnd.2.2 hk hmem)]
    exact load_db_mem db0 pre p.1 p.2 r s hpre hnd.1 hp hr hs

/-- C10 witness: a document whose `events` collection has a good record,
then a record without `serial`, then another record; loading fails with
`KeyError('serial')`, the earlier `venues` collection and the good event
are in the store, and neither the failing record's collection-mates after
it nor the later `speakers` collection are written. -/
theorem C10_load_db_not_atomic_witness :
    (load_db []
        [("venues", [[("serial", .vNat 1449), ("name", .vStr "Portland 251")]]),
         ("events", [[("serial", .vNat 1)], [("name", .vStr "no serial here")],
                     [("serial", .vNat 9)]]),
         ("speakers", [[("serial", .vNat 3471)]])]).snd = some (.keyError "serial") ∧
    alistGet (load_db []
        [("venues", [[("serial", .vNat 1449), ("name", .vStr "Portland 251")]]),
         ("events", [[("serial", .vNat 1)], [("name", .vStr "no serial here")],
                     [("serial", .vNat 9)]]),
         ("speakers", [[("serial", .vNat 3471)]])]).fst
      (derivedKey "events" (.vNat 1)) = some (loadedRec "events" [("serial", .vNat 1)] (.vNat 1)) ∧
    alistGet (load_db []
        [("venues", [[("serial", .vNat 1449), ("name", .vStr "Portland 251")]]),
         ("events", [[("serial", .vNat 1)], [("name", .vStr "no serial here")],
                     [("serial", .vNat 9)]]),
         ("speakers", [[("serial", .vNat 3471)]])]).fst
      (derivedKey "venues" (.vNat 1449)) =
      some (loadedRec "venues" [("serial", .vNat 1449), ("name", .vStr "Portland 251")]
        (.vNat 1449)) ∧
    alistGet (load_db []
        [("venues", [[("serial", .vNat 1449), ("name", .vStr "Portland 251")]]),
         ("events", [[("serial", .vNat 1)], [("name", .vStr "no serial here")],
                     [("serial", .vNat 9)]]),
         ("speakers", [[("serial", .vNat 3471)]])]).fst
      (derivedKey "events" (.vNat 9)) = none ∧
    alistGet (load_db []
        [("venues", [[("serial", .vNat 1449), ("name", .vStr "Portland 251")]]),
         ("events", [[("serial", .vNat 1)], [("name", .vStr "no serial here")],
                     [("serial", .vNat 9)]]),
         ("speakers", [[("serial", .vNat 3471)]])]).fst
      (derivedKey "speakers" (.vNat 3471)) = none := by
  have h := C10_load_db_not_atomic []
    [("venues", [[("serial", .vNat 1449), ("name", .vStr "Portland 251")]])]
    "events" [[("serial", .vNat 1)]] [("name", .vStr "no serial here")]
    [[("serial", .vNat 9)]]
    [("speakers", [[("serial", .vNat 3471)]])]
    (by decide) (by decide) rfl (by decide)
  refine ⟨h.1, ?_, ?_, rfl, rfl⟩
  · exact h.2.2.1 [("serial", .vNat 1)] (by simp) (.vNat 1) rfl
  · exact h.2.2.2 ("venues", [[("serial", .vNat 1449), ("name", .vStr "Portland 251")]])
      (by simp) [("serial", .vNat 1449), ("name", .vStr "Portland 251")] (by simp)
      (.vNat 1449) rfl

end Schedule2
